import Mathlib

/-!
Verification of the ticktask authentication / token-lifecycle subsystem and the
date-filter / query engine, as a shallow embedding of the Python source
(`ticktask/api/auth.py`, `ticktask/api/tasks.py`, `src/commands/workflow.py`).

Python `datetime.date` / `datetime.datetime` values are embedded as records of
their calendar fields (proleptic Gregorian calendar, as CPython implements
them); `timedelta` day arithmetic is embedded as day-stepping on that calendar.
-/

namespace Ticktask

/-- Gregorian leap-year test, as CPython's `calendar.isleap` /
`datetime`'s internal `_is_leap`. -/
def isLeap (y : Nat) : Bool :=
  (y % 4 == 0 && y % 100 != 0) || (y % 400 == 0)

/-- Number of days in month `m` (1-12) of year `y`, as CPython's
`_days_in_month`; 0 for an out-of-range month. -/
def daysInMonth (y m : Nat) : Nat :=
  if m = 2 then (if isLeap y then 29 else 28)
  else if m = 4 ∨ m = 6 ∨ m = 9 ∨ m = 11 then 30
  else if m = 1 ∨ m = 3 ∨ m = 5 ∨ m = 7 ∨ m = 8 ∨ m = 10 ∨ m = 12 then 31
  else 0

/-- Days in months strictly before month `m` of year `y`
(CPython's `_days_before_month`). -/
def daysBeforeMonth (y : Nat) : Nat → Nat
  | 0 => 0
  | m + 1 => daysBeforeMonth y m + daysInMonth y m

/-- Count of leap years with year number strictly below `y`
(the leap-day correction inside CPython's `_days_before_year`). -/
def leapsBefore (y : Nat) : Nat :=
  (y - 1) / 4 + (y - 1) / 400 - (y - 1) / 100

/-- A Python `datetime.date`: proleptic Gregorian calendar fields. -/
structure PyDate where
  year : Nat
  month : Nat
  day : Nat
deriving DecidableEq, Repr

/-- The date is one CPython's `datetime.date` accepts (year ≥ 1, month and day
in range). CPython also caps the year at 9999; theorems that step the calendar
forward do not need the cap, so it is not imposed here. -/
def ValidDate (d : PyDate) : Prop :=
  1 ≤ d.year ∧ 1 ≤ d.month ∧ d.month ≤ 12 ∧ 1 ≤ d.day ∧ d.day ≤ daysInMonth d.year d.month

instance (d : PyDate) : Decidable (ValidDate d) :=
  inferInstanceAs (Decidable (_ ∧ _ ∧ _ ∧ _ ∧ _))

/-- Python's `date.toordinal()`: day number with 0001-01-01 as day 1. -/
def toOrdinal (d : PyDate) : Nat :=
  365 * (d.year - 1) + leapsBefore d.year + daysBeforeMonth d.year d.month + d.day

/-- Python's `date.weekday()`: Monday = 0 … Sunday = 6
(0001-01-01, ordinal 1, is a Monday). -/
def pyWeekday (d : PyDate) : Nat :=
  (toOrdinal d + 6) % 7

/-- The calendar day after `d` (the effect of Python's `date + timedelta(days=1)`). -/
def succDay (d : PyDate) : PyDate :=
  if d.day < daysInMonth d.year d.month then ⟨d.year, d.month, d.day + 1⟩
  else if d.month < 12 then ⟨d.year, d.month + 1, 1⟩
  else ⟨d.year + 1, 1, 1⟩

/-- The calendar day before `d` (the effect of Python's `date - timedelta(days=1)`). -/
def predDay (d : PyDate) : PyDate :=
  if 1 < d.day then ⟨d.year, d.month, d.day - 1⟩
  else if 1 < d.month then ⟨d.year, d.month - 1, daysInMonth d.year (d.month - 1)⟩
  else ⟨d.year - 1, 12, 31⟩

/-- Python's `date + timedelta(days=k)` for `k ≥ 0`. -/
def addDaysN (d : PyDate) : Nat → PyDate
  | 0 => d
  | k + 1 => succDay (addDaysN d k)

/-- Python's `date - timedelta(days=k)` for `k ≥ 0`. -/
def subDaysN (d : PyDate) : Nat → PyDate
  | 0 => d
  | k + 1 => predDay (subDaysN d k)

theorem daysInMonth_pos (y m : Nat) (h1 : 1 ≤ m) (h2 : m ≤ 12) :
    1 ≤ daysInMonth y m := by
  unfold daysInMonth
  split_ifs <;> omega

theorem validDate_succDay (d : PyDate) (h : ValidDate d) : ValidDate (succDay d) := by
  obtain ⟨hy, hm1, hm2, hd1, hd2⟩ := h
  unfold succDay ValidDate
  split_ifs with h1 h2 <;> dsimp only
  · omega
  · have := daysInMonth_pos d.year (d.month + 1) (by omega) (by omega)
    omega
  · have h31 : daysInMonth (d.year + 1) 1 = 31 := by simp [daysInMonth]
    omega

theorem leapsBefore_succ (y : Nat) (hy : 1 ≤ y) :
    leapsBefore (y + 1) = leapsBefore y + (if isLeap y then 1 else 0) := by
  unfold leapsBefore isLeap
  simp only [Bool.or_eq_true, Bool.and_eq_true, beq_iff_eq, bne_iff_ne, ne_eq]
  split_ifs with h
  · omega
  · omega

theorem daysBeforeMonth_twelve (y : Nat) :
    daysBeforeMonth y 12 = 334 + (if isLeap y then 1 else 0) := by
  show daysBeforeMonth y (11 + 1) = _
  simp only [daysBeforeMonth, daysInMonth]
  norm_num
  split_ifs <;> omega

theorem toOrdinal_succDay (d : PyDate) (h : ValidDate d) :
    toOrdinal (succDay d) = toOrdinal d + 1 := by
  obtain ⟨hy, hm1, hm2, hd1, hd2⟩ := h
  unfold succDay
  split_ifs with h1 h2
  · simp only [toOrdinal]
    omega
  · have hday : d.day = daysInMonth d.year d.month := by omega
    simp only [toOrdinal, daysBeforeMonth]
    omega
  · have hm : d.month = 12 := by omega
    have hday : d.day = 31 := by
      have : daysInMonth d.year d.month = 31 := by
        rw [hm]; simp [daysInMonth]
      omega
    have h334 := daysBeforeMonth_twelve d.year
    have hlb := leapsBefore_succ d.year hy
    have hjan : daysBeforeMonth (d.year + 1) 1 = 0 := by
      simp [daysBeforeMonth, daysInMonth]
    simp only [toOrdinal, hm, hday]
    rw [hjan]
    split_ifs at hlb h334 <;> omega

theorem addDaysN_valid_ordinal (d : PyDate) (h : ValidDate d) (k : Nat) :
    ValidDate (addDaysN d k) ∧ toOrdinal (addDaysN d k) = toOrdinal d + k := by
  induction k with
  | zero => exact ⟨h, rfl⟩
  | succ n ih =>
    refine ⟨validDate_succDay _ ih.1, ?_⟩
    rw [addDaysN, toOrdinal_succDay _ ih.1, ih.2]
    omega

theorem pyWeekday_lt (d : PyDate) : pyWeekday d < 7 :=
  Nat.mod_lt _ (by omega)

/-- A Python `datetime.datetime`: a date plus time-of-day fields, including the
microsecond field (which `datetime.replace(hour=…, minute=…, second=…)` keeps). -/
structure PyDateTime where
  date : PyDate
  hour : Nat
  minute : Nat
  second : Nat
  microsecond : Nat
deriving DecidableEq, Repr

/-- `dt.replace(hour=h, minute=mi, second=s)`: time fields replaced, date and
microsecond untouched. -/
def replaceHMS (dt : PyDateTime) (h mi s : Nat) : PyDateTime :=
  { dt with hour := h, minute := mi, second := s }

/-- `dt + timedelta(days=k)` for `k ≥ 0`: only the date part moves. -/
def addDaysDT (dt : PyDateTime) (k : Nat) : PyDateTime :=
  { dt with date := addDaysN dt.date k }

/-- `dt - timedelta(days=k)` for `k ≥ 0`. -/
def subDaysDT (dt : PyDateTime) (k : Nat) : PyDateTime :=
  { dt with date := subDaysN dt.date k }

/-- Python `str.lower()` (ASCII case folding, which is all the parser needs). -/
def pyLower (s : String) : String :=
  String.mk (s.data.map Char.toLower)

/-- Python `str.strip()`: leading and trailing whitespace removed. -/
def pyStrip (s : String) : String :=
  String.mk (((s.data.dropWhile Char.isWhitespace).reverse.dropWhile Char.isWhitespace).reverse)

/-- Longest prefix of digits, with the remainder (the greedy `\d+` of
`re.match`; greediness is exact here because a space must follow). -/
def digitsPrefix : List Char → List Char × List Char
  | [] => ([], [])
  | c :: cs =>
    if c.isDigit then
      let p := digitsPrefix cs
      (c :: p.1, p.2)
    else ([], c :: cs)

/-- Decimal digit list to a number. -/
def digitsToNat (ds : List Char) : Nat :=
  ds.foldl (fun acc c => 10 * acc + (c.toNat - 48)) 0

/-- The unit alternatives of the pattern
`in (\d+) (day|days|week|weeks|month|months)`, in the order the regex
alternation tries them. -/
def inUnits : List String :=
  ["day", "days", "week", "weeks", "month", "months"]

/-- `re.match(r"in (\d+) (day|days|week|weeks|month|months)", s)`: a prefix
match returning the captured amount and unit. -/
def matchInPattern (s : String) : Option (Nat × String) :=
  match s.data with
  | 'i' :: 'n' :: ' ' :: rest =>
    let p := digitsPrefix rest
    if p.1.isEmpty then none
    else
      match p.2 with
      | ' ' :: rest2 =>
        match (inUnits.map String.data).find? (fun a => a.isPrefixOf rest2) with
        | some u => some (digitsToNat p.1, String.mk u)
        | none => none
      | _ => none
  | _ => none

/-- The weekday-name-to-number table of `_parse_date`, in the order the regex
alternation `(monday|tuesday|…|sunday)` tries the names. -/
def weekdayAlts : List (String × Nat) :=
  [("monday", 0), ("tuesday", 1), ("wednesday", 2), ("thursday", 3),
   ("friday", 4), ("saturday", 5), ("sunday", 6)]

/-- `re.match(r"next (monday|…|sunday)", s)`: a prefix match returning the
weekday number of the captured name. -/
def matchNextWeekday (s : String) : Option Nat :=
  match s.data with
  | 'n' :: 'e' :: 'x' :: 't' :: ' ' :: rest =>
    (weekdayAlts.find? (fun p => p.1.data.isPrefixOf rest)).map (fun p => p.2)
  | _ => none

/-- Modelled from the spec: the external general-purpose date parser
(`dateutil.parser.parse`) that `_parse_date` falls back to, restricted to ISO
`YYYY-MM-DD` date-only strings. On such a string dateutil returns the named
date at midnight with all time fields 0 (its default is today at 00:00:00.000000
and a date-only string replaces only the date part); on out-of-range components
it raises, which this model folds into `none` alongside unrecognized strings. -/
def parseIsoDate (s : String) : Option PyDate :=
  match s.data with
  | [y1, y2, y3, y4, '-', m1, m2, '-', d1, d2] =>
    if ([y1, y2, y3, y4, m1, m2, d1, d2].all Char.isDigit) then
      let y := digitsToNat [y1, y2, y3, y4]
      let m := digitsToNat [m1, m2]
      let d := digitsToNat [d1, d2]
      if 1 ≤ y ∧ 1 ≤ m ∧ m ≤ 12 ∧ 1 ≤ d ∧ d ≤ daysInMonth y m then
        some ⟨y, m, d⟩
      else none
    else none
  | _ => none

/-- The two kinds of `ValueError` that can escape `_parse_date`:
`invalidDayForMonth` is the uncaught error `datetime.replace` raises inside the
`"next month"` branch when the current day number does not exist in the target
month; `couldNotParse` is the parser's own "Could not parse date" error. -/
inductive ParseErr where
  | invalidDayForMonth
  | couldNotParse (s : String)
deriving DecidableEq, Repr

/-- `now.replace(…, month=m, …, hour=23, minute=59, second=59)` possibly also
replacing the year: validates the day against the new month exactly as CPython
does, raising `ValueError` (here: `.error .invalidDayForMonth`) if it is out of
range. -/
def replaceYMandEOD (now : PyDateTime) (y m : Nat) : Except ParseErr PyDateTime :=
  if 1 ≤ m ∧ m ≤ 12 ∧ 1 ≤ now.date.day ∧ now.date.day ≤ daysInMonth y m then
    .ok { date := ⟨y, m, now.date.day⟩, hour := 23, minute := 59, second := 59,
          microsecond := now.microsecond }
  else .error .invalidDayForMonth

/-- The `days_ahead` computation of the `next <weekday>` branch:
`target - now.weekday()`, plus 7 if that is ≤ 0. -/
def nextWeekdayDelta (now : PyDateTime) (w : Nat) : Nat :=
  (if (w : Int) - (pyWeekday now.date : Int) ≤ 0 then
      (w : Int) - (pyWeekday now.date : Int) + 7
    else (w : Int) - (pyWeekday now.date : Int)).toNat

/-- Python's substring test `needle in haystack` on character lists. -/
def listIsInfixOf (xs : List Char) : List Char → Bool
  | [] => xs.isEmpty
  | y :: ys => xs.isPrefixOf (y :: ys) || listIsInfixOf xs ys

/-- The `in (\d+) (day|…)` branch after a successful match: Python tests
`"day" in unit` / `"week" in unit` / `"month" in unit` with no final `else`,
falling through to the next pattern if none applies. -/
def inPatternBranch (now : PyDateTime) (amount : Nat) (unit : String) :
    Option PyDateTime :=
  if (listIsInfixOf "day".data unit.data) then
    some (replaceHMS (addDaysDT now amount) 23 59 59)
  else if (listIsInfixOf "week".data unit.data) then
    some (replaceHMS (addDaysDT now (7 * amount)) 23 59 59)
  else if (listIsInfixOf "month".data unit.data) then
    some (replaceHMS (addDaysDT now (30 * amount)) 23 59 59)
  else none

/-- The part of `_parse_date` after the `in <N> <unit>` pattern: the
`next <weekday>` pattern, then the general-parser fallback that normalizes a
midnight result to 23:59:59, then the final `ValueError`. -/
def parseDateTail (now : PyDateTime) (ds : String) : Except ParseErr PyDateTime :=
  match matchNextWeekday ds with
  | some w => .ok (replaceHMS (addDaysDT now (nextWeekdayDelta now w)) 23 59 59)
  | none =>
    match parseIsoDate ds with
    | some d =>
      let parsed : PyDateTime := ⟨d, 0, 0, 0, 0⟩
      if parsed.hour = 0 ∧ parsed.minute = 0 then .ok (replaceHMS parsed 23 59 59)
      else .ok parsed
    | none => .error (.couldNotParse ds)

/-- `TaskManager._parse_date(date_str)` with `datetime.now()` passed in
explicitly. Returns `.error e` where the Python method raises `ValueError`. -/
def parse_date (now : PyDateTime) (dateStr : String) : Except ParseErr PyDateTime :=
  let ds := pyStrip (pyLower dateStr)
  if ds = "today" then .ok (replaceHMS now 23 59 59)
  else if ds = "tomorrow" then .ok (replaceHMS (addDaysDT now 1) 23 59 59)
  else if ds = "yesterday" then .ok (replaceHMS (subDaysDT now 1) 23 59 59)
  else if ds = "next week" then .ok (replaceHMS (addDaysDT now 7) 23 59 59)
  else if ds = "next month" then
    if now.date.month = 12 then replaceYMandEOD now (now.date.year + 1) 1
    else replaceYMandEOD now now.date.year (now.date.month + 1)
  else
    match matchInPattern ds with
    | some (amount, unit) =>
      match inPatternBranch now amount unit with
      | some r => .ok r
      | none => parseDateTail now ds
    | none => parseDateTail now ds

/-- Strict lexicographic order on equal-length `Nat` tuples (Python's `<` on
`date`/`datetime` values, which compares their calendar fields in order). -/
def lexLT : List Nat → List Nat → Bool
  | [], [] => false
  | [], _ :: _ => true
  | _ :: _, [] => false
  | a :: as, b :: bs => a < b || (a == b && lexLT as bs)

/-- Non-strict lexicographic order on equal-length `Nat` tuples (Python's `<=`
on `date`/`datetime` values). -/
def lexLE : List Nat → List Nat → Bool
  | [], _ => true
  | _ :: _, [] => false
  | a :: as, b :: bs => a < b || (a == b && lexLE as bs)

theorem lexLE_total : ∀ xs ys : List Nat, lexLE xs ys = true ∨ lexLE ys xs = true
  | [], _ => Or.inl rfl
  | _ :: _, [] => Or.inr rfl
  | a :: as, b :: bs => by
    rcases Nat.lt_trichotomy a b with h | h | h
    · left; simp [lexLE, h]
    · subst h
      rcases lexLE_total as bs with ih | ih <;> simp [lexLE, ih]
    · right; simp [lexLE, h]

theorem lexLE_trans : ∀ xs ys zs : List Nat,
    lexLE xs ys = true → lexLE ys zs = true → lexLE xs zs = true
  | [], _, _ => by intro _ _; rfl
  | _ :: _, [], _ => by intro h _; simp [lexLE] at h
  | _ :: _, _ :: _, [] => by intro _ h; simp [lexLE] at h
  | a :: as, b :: bs, c :: cs => by
    intro h1 h2
    simp only [lexLE, Bool.or_eq_true, Bool.and_eq_true, decide_eq_true_eq,
      beq_iff_eq] at h1 h2 ⊢
    rcases h1 with h1 | ⟨rfl, h1⟩
    · rcases h2 with h2 | ⟨rfl, _⟩
      · exact Or.inl (Nat.lt_trans h1 h2)
      · exact Or.inl h1
    · rcases h2 with h2 | ⟨rfl, h2⟩
      · exact Or.inl h2
      · exact Or.inr ⟨rfl, lexLE_trans as bs cs h1 h2⟩

theorem lexLE_antisymm : ∀ xs ys : List Nat,
    lexLE xs ys = true → lexLE ys xs = true → xs = ys
  | [], [], _, _ => rfl
  | [], _ :: _, _, h => by simp [lexLE] at h
  | _ :: _, [], h, _ => by simp [lexLE] at h
  | a :: as, b :: bs, h1, h2 => by
    simp only [lexLE, Bool.or_eq_true, Bool.and_eq_true, decide_eq_true_eq,
      beq_iff_eq] at h1 h2
    rcases h1 with h1 | ⟨e1, h1⟩
    · rcases h2 with h2 | ⟨e2, _⟩ <;> omega
    · rcases h2 with h2 | ⟨e2, h2⟩
      · omega
      · subst e1
        rw [lexLE_antisymm as bs h1 h2]

/-- The fields of `models.Task` that the verified functions read.
`priority` carries the `TaskPriority` integer values {0, 1, 3, 5} and `status`
the `TaskStatus` values {0 = NORMAL, 2 = COMPLETED} (pydantic
`use_enum_values`); neither set of values is needed for the proofs. -/
structure Task where
  id : Option String
  project_id : String
  title : String
  due_date : Option PyDateTime
  priority : Nat
  status : Nat
deriving DecidableEq, Repr

/-- Python `date` equality on the embedded dates. -/
def dateEq (a b : PyDate) : Bool := a == b

/-- Python `date` `<=` (lexicographic on year, month, day). -/
def dateLE (a b : PyDate) : Bool := lexLE [a.year, a.month, a.day] [b.year, b.month, b.day]

/-- Python `date` `<` (lexicographic on year, month, day). -/
def dateLT (a b : PyDate) : Bool := lexLT [a.year, a.month, a.day] [b.year, b.month, b.day]

/-- The per-task predicate of `TaskManager._filter_by_due_date`: a task with no
due date is skipped, otherwise its due date's date part is compared against the
bucket name. `today` is `datetime.now().date()`. -/
def dueFilterPred (due_filter : String) (today : PyDate) (t : Task) : Bool :=
  match t.due_date with
  | none => false
  | some dd =>
    let task_date := dd.date
    if due_filter = "today" then dateEq task_date today
    else if due_filter = "tomorrow" then dateEq task_date (addDaysN today 1)
    else if due_filter = "week" then dateLE task_date (addDaysN today 7)
    else if due_filter = "overdue" then dateLT task_date today
    else false

/-- `TaskManager._filter_by_due_date(tasks, due_filter)` with "now"'s date
passed in explicitly; order-preserving selection. -/
def filter_by_due_date (tasks : List Task) (due_filter : String) (today : PyDate) :
    List Task :=
  tasks.filter (dueFilterPred due_filter today)

/-- The filtering portion of `TaskManager.list_tasks` (after the tasks have
been fetched): due-date filter, then priority filter, then status filter.
`none` stands for Python `None`; Python's truthiness tests (`if due_filter:`,
`if status:`) also skip empty strings. -/
def list_tasks_filter (all_tasks : List Task) (due_filter : Option String)
    (priority : Option Nat) (status : Option String) (today : PyDate) : List Task :=
  let t1 := match due_filter with
    | some f => if f.isEmpty then all_tasks else filter_by_due_date all_tasks f today
    | none => all_tasks
  let t2 := match priority with
    | some p => t1.filter (fun t => t.priority == p)
    | none => t1
  match status with
  | some st =>
    if st.isEmpty then t2
    else if pyLower st = "completed" then t2.filter (fun t => t.status == 2)
    else if pyLower st = "open" then t2.filter (fun t => t.status == 0)
    else t2
  | none => t2

/-- The field tuple by which Python compares two `datetime` values. -/
def dtKey (d : PyDateTime) : List Nat :=
  [d.date.year, d.date.month, d.date.day, d.hour, d.minute, d.second, d.microsecond]

/-- Python's `datetime.max`: 9999-12-31 23:59:59.999999. -/
def dtMax : PyDateTime := ⟨⟨9999, 12, 31⟩, 23, 59, 59, 999999⟩

/-- The sort key of the daily plan:
`(-(t.priority or 0), t.due_date or datetime.max)`. `t.priority` is a plain
int (so `or 0` only maps 0 to 0), and a missing due date becomes
`datetime.max`. -/
def daily_plan_key (t : Task) : Int × List Nat :=
  (-(t.priority : Int), dtKey (t.due_date.getD dtMax))

/-- Python's tuple `<=` on two daily-plan sort keys. -/
def keyLE (a b : Task) : Bool :=
  (daily_plan_key a).1 < (daily_plan_key b).1 ||
    ((daily_plan_key a).1 == (daily_plan_key b).1 &&
      lexLE (daily_plan_key a).2 (daily_plan_key b).2)

/-- The comparison relation `unique_tasks.sort(key=…)` sorts by. -/
def sortRel (a b : Task) : Prop := keyLE a b = true

instance : DecidableRel sortRel := fun a b => inferInstanceAs (Decidable (keyLE a b = true))

instance : IsTotal Task sortRel where
  total a b := by
    unfold sortRel keyLE
    simp only [Bool.or_eq_true, Bool.and_eq_true, decide_eq_true_eq, beq_iff_eq]
    rcases lt_trichotomy (daily_plan_key a).1 (daily_plan_key b).1 with h | h | h
    · exact Or.inl (Or.inl h)
    · rcases lexLE_total (daily_plan_key a).2 (daily_plan_key b).2 with h2 | h2
      · exact Or.inl (Or.inr ⟨h, h2⟩)
      · exact Or.inr (Or.inr ⟨h.symm, h2⟩)
    · exact Or.inr (Or.inl h)

instance : IsTrans Task sortRel where
  trans a b c := by
    unfold sortRel keyLE
    simp only [Bool.or_eq_true, Bool.and_eq_true, decide_eq_true_eq, beq_iff_eq]
    intro h1 h2
    rcases h1 with h1 | ⟨e1, h1⟩
    · rcases h2 with h2 | ⟨e2, _⟩
      · exact Or.inl (lt_trans h1 h2)
      · exact Or.inl (e2 ▸ h1)
    · rcases h2 with h2 | ⟨e2, h2⟩
      · exact Or.inl (e1 ▸ h2)
      · exact Or.inr ⟨e1.trans e2, lexLE_trans _ _ _ h1 h2⟩

/-- The daily-plan sort of `workflow.daily_plan`:
`unique_tasks.sort(key=lambda t: (-(t.priority or 0), t.due_date or datetime.max))`,
a stable sort by that key. -/
def daily_plan_sort (l : List Task) : List Task :=
  l.insertionSort sortRel

/-- A task's due date, if present, is strictly below `datetime.max` (true of
every due date a real task can carry except `datetime.max` itself). -/
def dueBound (t : Task) : Bool :=
  match t.due_date with
  | none => true
  | some d => !(lexLE (dtKey dtMax) (dtKey d))

/-- The sort order the spec describes for the daily plan: higher priority
first; for equal priority earlier due date first, with due-date-less tasks
after all dated tasks. -/
def specSortOrder (a b : Task) : Prop :=
  b.priority < a.priority ∨
    (a.priority = b.priority ∧
      match a.due_date, b.due_date with
      | some d1, some d2 => lexLE (dtKey d1) (dtKey d2) = true
      | some _, none => True
      | none, none => True
      | none, some _ => False)

/-- The token dictionary persisted by `TokenStorage` (the JSON object's fields
read by the verified code; `saved_at` is an ISO timestamp, embedded as seconds,
and `None` stands for an absent key). -/
structure TokenDict where
  access_token : Option String
  refresh_token : Option String
  saved_at : Option Int
deriving DecidableEq, Repr

/-- Python's `not tokens` on the loaded dict: true for the empty dict (the
representable dicts are those with the three known keys). -/
def TokenDict.isEmptyDict (t : TokenDict) : Bool :=
  t.access_token.isNone && t.refresh_token.isNone && t.saved_at.isNone

/-- The decrypted bytes: either valid JSON for a token dict or not
(`json.loads` raises on the latter). -/
inductive Blob where
  | json (t : TokenDict)
  | notJson
deriving DecidableEq, Repr

/-- `json.loads` on a decrypted blob; `.error` is the raised exception. -/
def json_loads : Blob → Except String TokenDict
  | .json t => .ok t
  | .notJson => .error "JSONDecodeError"

/-- A Fernet ciphertext: the key it was encrypted under and the plaintext.
This models Fernet's guarantee that decryption with any other key fails. -/
structure Cipher where
  key : Nat
  payload : Blob
deriving DecidableEq, Repr

/-- `Fernet(key).encrypt(blob)`. -/
def fernet_encrypt (key : Nat) (b : Blob) : Cipher := ⟨key, b⟩

/-- `Fernet(key).decrypt(c)`: succeeds with the plaintext exactly when the key
matches, otherwise raises `InvalidToken` (`.error`). -/
def fernet_decrypt (key : Nat) (c : Cipher) : Except String Blob :=
  if c.key = key then .ok c.payload else .error "InvalidToken"

/-- `TokenStorage.save_tokens(tokens)`: stamps `saved_at` with the current
time, serializes and encrypts. -/
def save_tokens (key : Nat) (now : Int) (tokens : TokenDict) : Cipher :=
  fernet_encrypt key (.json { tokens with saved_at := some now })

/-- The `try` block of `TokenStorage.load_tokens`: read, decrypt, parse —
any step may raise (`.error`). -/
def load_tokens_body (key : Nat) (c : Cipher) : Except String TokenDict :=
  match fernet_decrypt key c with
  | .ok b => json_loads b
  | .error e => .error e

/-- `TokenStorage.load_tokens()`: `none` when the storage file does not exist;
otherwise the `try` block's result, with every raised exception caught and
turned into `None`. -/
def load_tokens (key : Nat) (stored : Option Cipher) : Option TokenDict :=
  match stored with
  | none => none
  | some c =>
    match load_tokens_body key c with
    | .ok t => some t
    | .error _ => none

/-- `OAuth2Handler.get_access_token()` with the ambient state passed in
explicitly: the storage key and file, the current time (seconds), and the
outcome the network refresh call would produce (`refresh_token()` saves and
returns the provider's new token dict, or raises). Returns the access token
(or `none`) paired with whether a refresh call was made. -/
def get_access_token (key : Nat) (stored : Option Cipher) (now : Int)
    (refreshOutcome : Except String TokenDict) : Option String × Bool :=
  match load_tokens key stored with
  | none => (none, false)
  | some tokens =>
    if tokens.isEmptyDict then (none, false)
    else
      let saved_at := tokens.saved_at.getD now
      if now - saved_at > 3600 then
        match tokens.refresh_token with
        | some _ =>
          match refreshOutcome with
          | .ok newTokens => (newTokens.access_token, true)
          | .error _ => (none, true)
        | none => (none, false)
      else (tokens.access_token, false)

/-- How `OAuth2Handler.wait_for_authorization` exits: returning the code,
raising the provider's authorization error, or raising `TimeoutError`. -/
inductive WaitExit where
  | ok (code : String)
  | authError (e : String)
  | timedOut
deriving DecidableEq, Repr

/-- The polling loop of `wait_for_authorization`, plus the cleanup and raise
that follow it. `obs n` is the `(self._auth_code, self._auth_error)` pair the
loop observes at its `n`-th iteration (one iteration per 0.1 s sleep), and
`timeoutDs` the timeout in those 0.1 s units, so the elapsed-time test
`loop.time() - start_time > timeout` becomes `n > timeoutDs`. The returned
`Bool` records whether `self._server.cleanup()` ran before the exit; fuel
bounds the recursion (`none` = still looping). -/
def wait_for_authorization (obs : Nat → Option String × Option String)
    (timeoutDs : Nat) : Nat → Nat → Option (WaitExit × Bool)
  | 0, _ => none
  | fuel + 1, n =>
    match obs n with
    | (none, none) =>
      if n > timeoutDs then some (.timedOut, false)
      else wait_for_authorization obs timeoutDs fuel (n + 1)
    | (_, some e) => some (.authError e, true)
    | (some c, none) => some (.ok c, true)

instance (a b : Task) : Decidable (specSortOrder a b) := by
  unfold specSortOrder
  cases a.due_date <;> cases b.due_date <;> exact inferInstance

/-- C3: for every task list and bucket name, the due-date filter selects
exactly the tasks whose due date equals today (`today`), equals today+1
(`tomorrow`), is `≤ today+7` with no lower bound (`week`), or is `< today`
(`overdue`); a task with no due date is never selected by any bucket. -/
theorem due_filter_buckets (tasks : List Task) (today : PyDate) (t : Task) :
    (t ∈ filter_by_due_date tasks "today" today ↔
      t ∈ tasks ∧ ∃ d, t.due_date = some d ∧ d.date = today)
  ∧ (t ∈ filter_by_due_date tasks "tomorrow" today ↔
      t ∈ tasks ∧ ∃ d, t.due_date = some d ∧ d.date = addDaysN today 1)
  ∧ (t ∈ filter_by_due_date tasks "week" today ↔
      t ∈ tasks ∧ ∃ d, t.due_date = some d ∧ dateLE d.date (addDaysN today 7) = true)
  ∧ (t ∈ filter_by_due_date tasks "overdue" today ↔
      t ∈ tasks ∧ ∃ d, t.due_date = some d ∧ dateLT d.date today = true)
  ∧ (∀ f : String, t.due_date = none → t ∉ filter_by_due_date tasks f today) := by
  refine ⟨?_, ?_, ?_, ?_, ?_⟩
  · rw [filter_by_due_date, List.mem_filter]
    cases h : t.due_date <;> simp [dueFilterPred, h, dateEq]
  · rw [filter_by_due_date, List.mem_filter]
    cases h : t.due_date <;> simp [dueFilterPred, h, dateEq]
  · rw [filter_by_due_date, List.mem_filter]
    cases h : t.due_date <;> simp [dueFilterPred, h]
  · rw [filter_by_due_date, List.mem_filter]
    cases h : t.due_date <;> simp [dueFilterPred, h]
  · intro f hnone
    rw [filter_by_due_date, List.mem_filter]
    simp [dueFilterPred, hnone]

/-- Witness for C3 at concrete inputs: a dated task a week out is selected by
`week`, an undated task is selected by no bucket. -/
theorem due_filter_buckets_witness :
    (⟨some "1", "p", "t1", some ⟨⟨2025, 3, 9⟩, 0, 0, 0, 0⟩, 0, 0⟩ ∈
      filter_by_due_date [⟨some "1", "p", "t1", some ⟨⟨2025, 3, 9⟩, 0, 0, 0, 0⟩, 0, 0⟩]
        "week" ⟨2025, 3, 2⟩ ↔
      (⟨some "1", "p", "t1", some ⟨⟨2025, 3, 9⟩, 0, 0, 0, 0⟩, 0, 0⟩ : Task) ∈
        [⟨some "1", "p", "t1", some ⟨⟨2025, 3, 9⟩, 0, 0, 0, 0⟩, 0, 0⟩] ∧
      ∃ d, (⟨some "1", "p", "t1", some ⟨⟨2025, 3, 9⟩, 0, 0, 0, 0⟩, 0, 0⟩ : Task).due_date =
        some d ∧ dateLE d.date (addDaysN ⟨2025, 3, 2⟩ 7) = true)
  ∧ (⟨some "2", "p", "t2", none, 0, 0⟩ ∉
      filter_by_due_date [⟨some "2", "p", "t2", none, 0, 0⟩] "today" ⟨2025, 3, 2⟩) :=
  ⟨(due_filter_buckets [⟨some "1", "p", "t1", some ⟨⟨2025, 3, 9⟩, 0, 0, 0, 0⟩, 0, 0⟩]
      ⟨2025, 3, 2⟩ ⟨some "1", "p", "t1", some ⟨⟨2025, 3, 9⟩, 0, 0, 0, 0⟩, 0, 0⟩).2.2.1,
   (due_filter_buckets [⟨some "2", "p", "t2", none, 0, 0⟩]
      ⟨2025, 3, 2⟩ ⟨some "2", "p", "t2", none, 0, 0⟩).2.2.2.2 "today" rfl⟩

/-- C4: the daily-plan sort is a permutation of its input ordered by priority
descending, then (for equal priority) due date ascending with due-date-less
tasks after all dated ones — provided no due date is `datetime.max` itself,
the sentinel used for missing due dates. -/
theorem daily_plan_sort_spec (l : List Task) (h : ∀ t ∈ l, dueBound t = true) :
    (daily_plan_sort l).Perm l ∧ (daily_plan_sort l).Pairwise specSortOrder := by
  have hperm := List.perm_insertionSort sortRel l
  refine ⟨hperm, ?_⟩
  have hsorted : (l.insertionSort sortRel).Pairwise sortRel :=
    List.sorted_insertionSort sortRel l
  refine List.Pairwise.imp_of_mem ?_ hsorted
  intro a b ha hb hab
  have hbb : dueBound b = true := h b (hperm.subset hb)
  unfold sortRel keyLE daily_plan_key at hab
  simp only [Bool.or_eq_true, Bool.and_eq_true, decide_eq_true_eq, beq_iff_eq] at hab
  unfold specSortOrder
  rcases hab with hlt | ⟨heq, hle⟩
  · left
    omega
  · right
    refine ⟨by omega, ?_⟩
    cases hda : a.due_date with
    | none =>
      cases hdb : b.due_date with
      | none => simp only [hda, hdb]
      | some db =>
        exfalso
        simp only [hda, hdb, Option.getD_none, Option.getD_some] at hle
        have hbool := hbb
        simp only [dueBound, hdb, Bool.not_eq_true'] at hbool
        rw [hle] at hbool
        exact Bool.noConfusion hbool
    | some da =>
      cases hdb : b.due_date with
      | none => simp only [hda, hdb]
      | some db =>
        simp only [hda, hdb, Option.getD_some] at hle
        simp only [hda, hdb]
        exact hle

/-- Witness for C4: the spec's own example — B (priority 5, due today) before
A (priority 5, due tomorrow), both before the undated priority-5 task, and
C (priority 1, due today) last. -/
theorem daily_plan_sort_witness :
    (∀ t ∈ [(⟨some "A", "p", "A", some ⟨⟨2025, 3, 3⟩, 23, 59, 59, 0⟩, 5, 0⟩ : Task),
            ⟨some "B", "p", "B", some ⟨⟨2025, 3, 2⟩, 23, 59, 59, 0⟩, 5, 0⟩,
            ⟨some "C", "p", "C", some ⟨⟨2025, 3, 2⟩, 23, 59, 59, 0⟩, 1, 0⟩],
        dueBound t = true)
  ∧ ((daily_plan_sort [⟨some "A", "p", "A", some ⟨⟨2025, 3, 3⟩, 23, 59, 59, 0⟩, 5, 0⟩,
        ⟨some "B", "p", "B", some ⟨⟨2025, 3, 2⟩, 23, 59, 59, 0⟩, 5, 0⟩,
        ⟨some "C", "p", "C", some ⟨⟨2025, 3, 2⟩, 23, 59, 59, 0⟩, 1, 0⟩]).Perm
      [⟨some "A", "p", "A", some ⟨⟨2025, 3, 3⟩, 23, 59, 59, 0⟩, 5, 0⟩,
        ⟨some "B", "p", "B", some ⟨⟨2025, 3, 2⟩, 23, 59, 59, 0⟩, 5, 0⟩,
        ⟨some "C", "p", "C", some ⟨⟨2025, 3, 2⟩, 23, 59, 59, 0⟩, 1, 0⟩]
    ∧ (daily_plan_sort [⟨some "A", "p", "A", some ⟨⟨2025, 3, 3⟩, 23, 59, 59, 0⟩, 5, 0⟩,
        ⟨some "B", "p", "B", some ⟨⟨2025, 3, 2⟩, 23, 59, 59, 0⟩, 5, 0⟩,
        ⟨some "C", "p", "C", some ⟨⟨2025, 3, 2⟩, 23, 59, 59, 0⟩, 1, 0⟩]).Pairwise
        specSortOrder) :=
  ⟨by decide,
   daily_plan_sort_spec
     [⟨some "A", "p", "A", some ⟨⟨2025, 3, 3⟩, 23, 59, 59, 0⟩, 5, 0⟩,
      ⟨some "B", "p", "B", some ⟨⟨2025, 3, 2⟩, 23, 59, 59, 0⟩, 5, 0⟩,
      ⟨some "C", "p", "C", some ⟨⟨2025, 3, 2⟩, 23, 59, 59, 0⟩, 1, 0⟩]
     (by decide)⟩

/-- C10: `list_tasks` with a status string other than "completed"/"open"
(case-insensitively) applies no status filtering at all — the result equals
filtering with no status argument — and raises no error. -/
theorem list_tasks_unknown_status (tasks : List Task) (df : Option String)
    (p : Option Nat) (today : PyDate) (s : String)
    (h1 : pyLower s ≠ "completed") (h2 : pyLower s ≠ "open") :
    list_tasks_filter tasks df p (some s) today =
      list_tasks_filter tasks df p none today := by
  dsimp only [list_tasks_filter]
  split_ifs <;> rfl

/-- Witness for C10 at a concrete status string "done". -/
theorem list_tasks_unknown_status_witness :
    list_tasks_filter [⟨some "1", "p", "t1", none, 0, 2⟩, ⟨some "2", "p", "t2", none, 0, 0⟩]
        none none (some "done") ⟨2025, 3, 2⟩ =
      list_tasks_filter [⟨some "1", "p", "t1", none, 0, 2⟩, ⟨some "2", "p", "t2", none, 0, 0⟩]
        none none none ⟨2025, 3, 2⟩ :=
  list_tasks_unknown_status _ none none ⟨2025, 3, 2⟩ "done" (by decide) (by decide)

/-- C7: `load_tokens` never raises to its caller — any failure of the read /
decrypt / parse body yields `none` — in particular a key regenerated between
save and load yields `none`; with the matching key the saved record round-trips. -/
theorem load_tokens_fail_soft :
    (∀ (key : Nat) (c : Cipher) (e : String),
      load_tokens_body key c = .error e → load_tokens key (some c) = none)
  ∧ (∀ (key key2 : Nat) (now : Int) (tokens : TokenDict), key ≠ key2 →
      load_tokens key2 (some (save_tokens key now tokens)) = none)
  ∧ (∀ (key : Nat) (now : Int) (tokens : TokenDict),
      load_tokens key (some (save_tokens key now tokens)) =
        some { tokens with saved_at := some now }) := by
  refine ⟨?_, ?_, ?_⟩
  · intro key c e he
    dsimp only [load_tokens]
    rw [he]
  · intro key key2 now tokens hne
    dsimp only [load_tokens, load_tokens_body, save_tokens, fernet_encrypt, fernet_decrypt]
    rw [if_neg hne]
  · intro key now tokens
    dsimp only [load_tokens, load_tokens_body, save_tokens, fernet_encrypt, fernet_decrypt]
    rw [if_pos rfl]
    rfl

/-- Witness for C7: a record saved under key 0 loads as `none` under key 1 and
round-trips under key 0. -/
theorem load_tokens_fail_soft_witness :
    load_tokens 1 (some (save_tokens 0 5 ⟨some "A", none, none⟩)) = none
  ∧ load_tokens 0 (some (save_tokens 0 5 ⟨some "A", none, none⟩)) =
      some ⟨some "A", none, some 5⟩ :=
  ⟨load_tokens_fail_soft.2.1 0 1 5 ⟨some "A", none, none⟩ (by decide),
   load_tokens_fail_soft.2.2 0 5 ⟨some "A", none, none⟩⟩

/-- C1 (amended): `get_access_token` returns the cached access token with no
refresh call whenever `now - saved_at ≤ 1 hour` — including at exactly one
hour — and makes a refresh call exactly when `now - saved_at` is strictly
greater than one hour and a refresh token is present. -/
theorem get_access_token_expiry (key : Nat) (stored : Option Cipher) (now s : Int)
    (tokens : TokenDict) (refreshOutcome : Except String TokenDict)
    (hload : load_tokens key stored = some tokens)
    (hne : tokens.isEmptyDict = false)
    (hsaved : tokens.saved_at = some s) :
    (now - s ≤ 3600 →
      get_access_token key stored now refreshOutcome = (tokens.access_token, false))
  ∧ (now - s > 3600 → ∀ rt, tokens.refresh_token = some rt →
      get_access_token key stored now refreshOutcome =
        match refreshOutcome with
        | .ok newTokens => (newTokens.access_token, true)
        | .error _ => (none, true)) := by
  unfold get_access_token
  rw [hload]
  simp only [hne, Bool.false_eq_true, if_false, hsaved, Option.getD_some]
  constructor
  · intro hle
    rw [if_neg (by omega)]
  · intro hgt rt hrt
    rw [if_pos (by omega), hrt]

/-- Counterexample for C1 as stated: at `now - saved_at` equal to exactly one
hour (3600 s), with a refresh token present and a refresh outcome available,
the code returns the cached token and makes no refresh call — so "triggers a
refresh when now - saved_at ≥ 1 hour" is false at the boundary. -/
theorem get_access_token_hour_boundary :
    (3600 : Int) - 0 ≥ 3600
  ∧ get_access_token 0 (some (save_tokens 0 0 ⟨some "A1", some "R1", none⟩)) 3600
      (.ok ⟨some "A2", some "R2", none⟩) = (some "A1", false) :=
  ⟨by decide, by decide⟩

/-- Witness for C1 (amended) at concrete ages 3600 s and 3601 s. -/
theorem get_access_token_expiry_witness :
    get_access_token 0 (some (save_tokens 0 0 ⟨some "A1", some "R1", none⟩)) 3600
      (.ok ⟨some "A2", some "R2", none⟩) = (some "A1", false)
  ∧ get_access_token 0 (some (save_tokens 0 0 ⟨some "A1", some "R1", none⟩)) 3601
      (.ok ⟨some "A2", some "R2", none⟩) = (some "A2", true) :=
  ⟨(get_access_token_expiry 0 (some (save_tokens 0 0 ⟨some "A1", some "R1", none⟩))
      3600 0 ⟨some "A1", some "R1", some 0⟩ (.ok ⟨some "A2", some "R2", none⟩)
      (by decide) (by decide) (by decide)).1 (by decide),
   (get_access_token_expiry 0 (some (save_tokens 0 0 ⟨some "A1", some "R1", none⟩))
      3601 0 ⟨some "A1", some "R1", some 0⟩ (.ok ⟨some "A2", some "R2", none⟩)
      (by decide) (by decide) (by decide)).2 (by decide) "R1" (by decide)⟩

/-- C9: a loaded token record with no `saved_at` field is treated as saved at
the current instant — the stored access token is returned with no refresh
attempt, whatever the record's actual age. -/
theorem get_access_token_missing_saved_at (key : Nat) (stored : Option Cipher)
    (now : Int) (refreshOutcome : Except String TokenDict) (tokens : TokenDict)
    (hload : load_tokens key stored = some tokens)
    (hne : tokens.isEmptyDict = false)
    (hsaved : tokens.saved_at = none) :
    get_access_token key stored now refreshOutcome = (tokens.access_token, false) := by
  unfold get_access_token
  rw [hload]
  simp only [hne, Bool.false_eq_true, if_false, hsaved, Option.getD_none]
  rw [if_neg (by omega)]

/-- Witness for C9: a record stored without `saved_at`, read at an arbitrarily
late time, still yields its access token with no refresh. -/
theorem get_access_token_missing_saved_at_witness :
    get_access_token 0 (some ⟨0, Blob.json ⟨some "A", some "R", none⟩⟩) 999999999
      (.ok ⟨some "A2", none, none⟩) = (some "A", false) :=
  get_access_token_missing_saved_at 0 (some ⟨0, Blob.json ⟨some "A", some "R", none⟩⟩)
    999999999 (.ok ⟨some "A2", none, none⟩) ⟨some "A", some "R", none⟩
    (by decide) (by decide) (by decide)

/-- C2 (code behaviour at the failing input): when no callback arrives before
the timeout, the wait loop raises `TimeoutError` without running the server
cleanup — the listener socket is left bound — while the success and
provider-error exits both run the cleanup first. -/
theorem wait_for_authorization_timeout_skips_cleanup :
    wait_for_authorization (fun _ => (none, none)) 1 4 0 = some (.timedOut, false)
  ∧ wait_for_authorization
      (fun n => if n = 1 then (some "CODE", none) else (none, none)) 1 4 0 =
        some (.ok "CODE", true)
  ∧ wait_for_authorization
      (fun n => if n = 1 then (none, some "denied") else (none, none)) 1 4 0 =
        some (.authError "denied", true) :=
  ⟨rfl, rfl, rfl⟩

/-- C8: when the current day-of-month does not exist in the following month
(day 29/30/31 with a shorter next month), parsing "next month" raises the
`ValueError` from `datetime.replace` — not a date or the parser's own
date-parse error. -/
theorem parse_next_month_valueError (now : PyDateTime) (h : ValidDate now.date)
    (hm : now.date.month ≠ 12)
    (hd : daysInMonth now.date.year (now.date.month + 1) < now.date.day) :
    parse_date now "next month" = .error .invalidDayForMonth := by
  have hred : parse_date now "next month" =
      if now.date.month = 12 then replaceYMandEOD now (now.date.year + 1) 1
      else replaceYMandEOD now now.date.year (now.date.month + 1) := rfl
  rw [hred, if_neg hm]
  unfold replaceYMandEOD
  rw [if_neg (by omega)]

/-- Witness for C8: on 2025-01-30 (February 2025 has 28 days) "next month"
raises the day-out-of-range `ValueError`. -/
theorem parse_next_month_valueError_witness :
    parse_date ⟨⟨2025, 1, 30⟩, 10, 0, 0, 0⟩ "next month" = .error .invalidDayForMonth :=
  parse_next_month_valueError ⟨⟨2025, 1, 30⟩, 10, 0, 0, 0⟩
    (by decide) (by decide) (by decide)

theorem nextWeekdayDelta_bounds (now : PyDateTime) (w : Nat) (hw : w < 7) :
    1 ≤ nextWeekdayDelta now w ∧ nextWeekdayDelta now w ≤ 7 := by
  have hwd : pyWeekday now.date < 7 := pyWeekday_lt now.date
  unfold nextWeekdayDelta
  split_ifs <;> omega

/-- C6: for every weekday name and every valid current date, `next <name>`
parses to end-of-day of `now + days_ahead` where `days_ahead` lands on the
nearest strictly future occurrence of that weekday — in particular exactly 7
days ahead (never today) when the name is today's weekday. -/
theorem parse_next_weekday_spec (now : PyDateTime) (h : ValidDate now.date)
    (name : String) (w : Nat) (hmem : (name, w) ∈ weekdayAlts) :
    parse_date now ("next " ++ name) =
      .ok ⟨addDaysN now.date (nextWeekdayDelta now w), 23, 59, 59, now.microsecond⟩
  ∧ 1 ≤ nextWeekdayDelta now w
  ∧ nextWeekdayDelta now w ≤ 7
  ∧ toOrdinal (addDaysN now.date (nextWeekdayDelta now w)) =
      toOrdinal now.date + nextWeekdayDelta now w
  ∧ pyWeekday (addDaysN now.date (nextWeekdayDelta now w)) = w
  ∧ (∀ k, 1 ≤ k → k < nextWeekdayDelta now w →
      (toOrdinal now.date + k + 6) % 7 ≠ w)
  ∧ (w = pyWeekday now.date → nextWeekdayDelta now w = 7) := by
  have hw : w < 7 := by
    fin_cases hmem <;> decide
  have hred : parse_date now ("next " ++ name) =
      .ok ⟨addDaysN now.date (nextWeekdayDelta now w), 23, 59, 59, now.microsecond⟩ := by
    fin_cases hmem <;> rfl
  obtain ⟨hb1, hb7⟩ := nextWeekdayDelta_bounds now w hw
  obtain ⟨hv, ho⟩ := addDaysN_valid_ordinal now.date h (nextWeekdayDelta now w)
  have hwd : pyWeekday now.date < 7 := pyWeekday_lt now.date
  have hcong : (toOrdinal now.date + nextWeekdayDelta now w + 6) % 7 = w := by
    unfold nextWeekdayDelta pyWeekday at *
    split_ifs at * <;> omega
  refine ⟨hred, hb1, hb7, ho, ?_, ?_, ?_⟩
  · rw [pyWeekday, ho]
    exact hcong
  · intro k hk1 hk7
    omega
  · intro he
    rw [pyWeekday] at he
    unfold nextWeekdayDelta pyWeekday
    split_ifs <;> omega

/-- Witness for C6: from Monday 2025-10-06, "next monday" is 2025-10-13,
exactly 7 days ahead. -/
theorem parse_next_weekday_witness :
    parse_date ⟨⟨2025, 10, 6⟩, 9, 30, 0, 123⟩ "next monday" =
      .ok ⟨⟨2025, 10, 13⟩, 23, 59, 59, 123⟩
  ∧ nextWeekdayDelta ⟨⟨2025, 10, 6⟩, 9, 30, 0, 123⟩ 0 = 7 :=
  ⟨(parse_next_weekday_spec ⟨⟨2025, 10, 6⟩, 9, 30, 0, 123⟩ (by decide)
      "monday" 0 (by decide)).1,
   (parse_next_weekday_spec ⟨⟨2025, 10, 6⟩, 9, 30, 0, 123⟩ (by decide)
      "monday" 0 (by decide)).2.2.2.2.2.2 (by decide)⟩

theorem parseIsoDate_head_digit (t : String) (p : PyDate)
    (h : parseIsoDate t = some p) :
    ∃ c cs, t.data = c :: cs ∧ c.isDigit = true := by
  unfold parseIsoDate at h
  split at h
  · rename_i y1 y2 y3 y4 m1 m2 d1 d2 heq
    split_ifs at h with hall hrange
    · refine ⟨y1, _, heq, ?_⟩
      simp only [List.all_cons, Bool.and_eq_true] at hall
      exact hall.1
  · exact Option.noConfusion h

theorem parseIsoDate_not_matchIn (t : String) (p : PyDate)
    (h : parseIsoDate t = some p) : matchInPattern t = none := by
  obtain ⟨c, cs, hdata, hdig⟩ := parseIsoDate_head_digit t p h
  unfold matchInPattern
  split
  · rename_i rest heq
    rw [hdata] at heq
    injection heq with hc _
    rw [hc] at hdig
    exact absurd hdig (by decide)
  · rfl

theorem parseIsoDate_not_matchNextWeekday (t : String) (p : PyDate)
    (h : parseIsoDate t = some p) : matchNextWeekday t = none := by
  obtain ⟨c, cs, hdata, hdig⟩ := parseIsoDate_head_digit t p h
  unfold matchNextWeekday
  split
  · rename_i rest heq
    rw [hdata] at heq
    injection heq with hc _
    rw [hc] at hdig
    exact absurd hdig (by decide)
  · rfl

/-- C5 (amended): "in 3 days" parses to end of day 3 days ahead but keeps the
current instant's microsecond field, while an explicit date string naming the
same date parses with microsecond 0 — so the two results coincide exactly when
the current time has zero microseconds. -/
theorem parse_in_3_days (now : PyDateTime) (s : String) (y m d : Nat)
    (hiso : parseIsoDate (pyStrip (pyLower s)) = some ⟨y, m, d⟩)
    (hdate : PyDate.mk y m d = addDaysN now.date 3) :
    parse_date now "in 3 days" = .ok ⟨addDaysN now.date 3, 23, 59, 59, now.microsecond⟩
  ∧ parse_date now s = .ok ⟨⟨y, m, d⟩, 23, 59, 59, 0⟩
  ∧ (parse_date now "in 3 days" = parse_date now s ↔ now.microsecond = 0) := by
  have h1 : parse_date now "in 3 days" =
      .ok ⟨addDaysN now.date 3, 23, 59, 59, now.microsecond⟩ := rfl
  have h2 : parse_date now s = .ok ⟨⟨y, m, d⟩, 23, 59, 59, 0⟩ := by
    have hin := parseIsoDate_not_matchIn _ _ hiso
    have hnw := parseIsoDate_not_matchNextWeekday _ _ hiso
    have hk1 : pyStrip (pyLower s) ≠ "today" := by
      intro he; rw [he] at hiso
      rw [show parseIsoDate "today" = none from rfl] at hiso
      exact Option.noConfusion hiso
    have hk2 : pyStrip (pyLower s) ≠ "tomorrow" := by
      intro he; rw [he] at hiso
      rw [show parseIsoDate "tomorrow" = none from rfl] at hiso
      exact Option.noConfusion hiso
    have hk3 : pyStrip (pyLower s) ≠ "yesterday" := by
      intro he; rw [he] at hiso
      rw [show parseIsoDate "yesterday" = none from rfl] at hiso
      exact Option.noConfusion hiso
    have hk4 : pyStrip (pyLower s) ≠ "next week" := by
      intro he; rw [he] at hiso
      rw [show parseIsoDate "next week" = none from rfl] at hiso
      exact Option.noConfusion hiso
    have hk5 : pyStrip (pyLower s) ≠ "next month" := by
      intro he; rw [he] at hiso
      rw [show parseIsoDate "next month" = none from rfl] at hiso
      exact Option.noConfusion hiso
    simp only [parse_date]
    rw [if_neg hk1, if_neg hk2, if_neg hk3, if_neg hk4, if_neg hk5, hin]
    unfold parseDateTail
    rw [hnw, hiso]
    rfl
  refine ⟨h1, h2, ?_⟩
  rw [h1, h2]
  constructor
  · intro he
    simp only [Except.ok.injEq, PyDateTime.mk.injEq] at he
    exact he.2.2.2.2
  · intro he
    rw [he, ← hdate]

/-- Counterexample for C5 as stated: at 2024-05-07 12:00:00.500000, "in 3 days"
and the explicit date string "2024-05-10" — which names the date exactly 3
days ahead — parse to different results (microsecond 500000 vs 0). -/
theorem parse_in_3_days_counterexample :
    parse_date ⟨⟨2024, 5, 7⟩, 12, 0, 0, 500000⟩ "in 3 days" =
      .ok ⟨⟨2024, 5, 10⟩, 23, 59, 59, 500000⟩
  ∧ parse_date ⟨⟨2024, 5, 7⟩, 12, 0, 0, 500000⟩ "2024-05-10" =
      .ok ⟨⟨2024, 5, 10⟩, 23, 59, 59, 0⟩
  ∧ addDaysN ⟨2024, 5, 7⟩ 3 = ⟨2024, 5, 10⟩
  ∧ (⟨⟨2024, 5, 10⟩, 23, 59, 59, 500000⟩ : PyDateTime) ≠ ⟨⟨2024, 5, 10⟩, 23, 59, 59, 0⟩ :=
  ⟨rfl, rfl, rfl, by decide⟩

/-- Witness for C5 (amended) at the same concrete instant and date string. -/
theorem parse_in_3_days_witness :
    parse_date ⟨⟨2024, 5, 7⟩, 12, 0, 0, 500000⟩ "2024-05-10" =
      .ok ⟨⟨2024, 5, 10⟩, 23, 59, 59, 0⟩
  ∧ (parse_date ⟨⟨2024, 5, 7⟩, 12, 0, 0, 500000⟩ "in 3 days" =
      parse_date ⟨⟨2024, 5, 7⟩, 12, 0, 0, 500000⟩ "2024-05-10" ↔ (500000 : Nat) = 0) :=
  ⟨(parse_in_3_days ⟨⟨2024, 5, 7⟩, 12, 0, 0, 500000⟩ "2024-05-10" 2024 5 10 rfl rfl).2.1,
   (parse_in_3_days ⟨⟨2024, 5, 7⟩, 12, 0, 0, 500000⟩ "2024-05-10" 2024 5 10 rfl rfl).2.2⟩

end Ticktask
